import Mathlib

/-!
# Verification of the xlsx-to-duckdb loader (`src/xlsx_loader/cli.py`)

Shallow embedding of the loader's logic:

* `sanitize_table_name` — the pure name sanitizer (lines 17–26 of `cli.py`).
* `processSheet` / `runSheets` / `load_xlsx` — the per-sheet loop of the
  `load_xlsx` command (lines 29–123), with the external collaborators
  (pandas sheet reading, duckdb table writes) modelled by per-sheet input
  data that says whether the read/write succeeds or raises, and the
  database modelled as an association list of tables.
* `derivePfx` — the table-name-prefix derivation of `load_all_xlsx`
  (lines 148–154), including `Path.stem` and `re.sub` on the timestamp
  pattern `_\d{8}_\d{6}`.

Python's `str` methods (`isalnum`, `isdigit`, `lower`) are Unicode-aware.
`sanitize_table_name` models them on the ASCII range; the second model
`sanitize_table_nameU` extends the character functions faithfully to the
non-ASCII codepoints U+0130 (İ), U+00C9/U+00E9 (É/é) and U+0307
(combining dot above), which is enough to exhibit the sanitizer's
genuine non-ASCII behaviour: Python's one-to-many lowercasing of `İ`
into `i` + U+0307 breaks both the all-alphanumeric-output property and
idempotence, and the two models provably agree on ASCII input.
-/

/-- ASCII digit test, modelling Python's `str.isdigit` on ASCII. -/
def isAsciiDigitC (c : Char) : Bool := 48 ≤ c.toNat && c.toNat ≤ 57

/-- ASCII uppercase-letter test. -/
def isAsciiUpperC (c : Char) : Bool := 65 ≤ c.toNat && c.toNat ≤ 90

/-- ASCII lowercase-letter test. -/
def isAsciiLowerC (c : Char) : Bool := 97 ≤ c.toNat && c.toNat ≤ 122

/-- ASCII alphanumeric test, modelling Python's `str.isalnum` on ASCII. -/
def isAlnumC (c : Char) : Bool := isAsciiUpperC c || isAsciiLowerC c || isAsciiDigitC c

/-- ASCII lowercasing of one character, modelling Python's `str.lower`. -/
def toLowerC (c : Char) : Char :=
  if isAsciiUpperC c then Char.ofNat (c.toNat + 32) else c

/-- `name.replace(" ", "_").replace("-", "_").replace(".", "_")`,
character by character (all patterns are single characters). -/
def replaceSpecial (c : Char) : Char :=
  if c == ' ' || c == '-' || c == '.' then '_' else c

/-- The character filter `c.isalnum() or c == "_"` of line 22. -/
def keepChar (c : Char) : Bool := isAlnumC c || c == '_'

/-- Lines 24–25: `if sanitized and sanitized[0].isdigit(): sanitized = f"sheet_{sanitized}"`. -/
def prefixIfDigit (s : List Char) : List Char :=
  match s with
  | [] => s
  | c :: _ => if isAsciiDigitC c then "sheet_".data ++ s else s

/-- `sanitize_table_name` on a list of characters:
replace space/hyphen/period with underscore, drop every other
non-alphanumeric non-underscore character, prepend `sheet_` when the
first remaining character is a digit, lowercase the result. -/
def sanitizeChars (l : List Char) : List Char :=
  (prefixIfDigit ((l.map replaceSpecial).filter keepChar)).map toLowerC

/-- The name sanitizer of `cli.py` lines 17–26. -/
def sanitize_table_name (name : String) : String :=
  String.mk (sanitizeChars name.data)

/-- A character admissible in a sanitized name: lowercase letter, digit,
or underscore. -/
def lowerOk (c : Char) : Bool := isAsciiLowerC c || isAsciiDigitC c || c == '_'

-- Character-level lemmas ----------------------------------------------------

theorem lowerC_of_upper_nat {n : Nat} (h1 : 65 ≤ n) (h2 : n ≤ 90) :
    isAsciiLowerC (Char.ofNat (n + 32)) = true := by
  interval_cases n <;> decide

theorem toLowerC_lowerOk {c : Char} (h : keepChar c = true) :
    lowerOk (toLowerC c) = true := by
  simp only [keepChar, isAlnumC, Bool.or_eq_true, beq_iff_eq] at h
  rcases h with ((hu | hl) | hd) | he
  · simp only [isAsciiUpperC, Bool.and_eq_true, decide_eq_true_eq] at hu
    simp only [toLowerC, isAsciiUpperC, lowerOk]
    rw [if_pos]
    · rw [lowerC_of_upper_nat hu.1 hu.2]; simp
    · simp only [Bool.and_eq_true, decide_eq_true_eq]; exact hu
  · have hnu : isAsciiUpperC c = false := by
      simp only [isAsciiLowerC, Bool.and_eq_true, decide_eq_true_eq] at hl
      simp only [isAsciiUpperC, Bool.and_eq_false_iff, decide_eq_false_iff_not]
      omega
    simp [toLowerC, hnu, lowerOk, hl]
  · have hnu : isAsciiUpperC c = false := by
      simp only [isAsciiDigitC, Bool.and_eq_true, decide_eq_true_eq] at hd
      simp only [isAsciiUpperC, Bool.and_eq_false_iff, decide_eq_false_iff_not]
      omega
    simp [toLowerC, hnu, lowerOk, hd]
  · subst he
    decide

theorem toLowerC_fix {c : Char} (h : lowerOk c = true) : toLowerC c = c := by
  have hnu : isAsciiUpperC c = false := by
    simp only [lowerOk, Bool.or_eq_true, beq_iff_eq, isAsciiLowerC, isAsciiDigitC,
      Bool.and_eq_true, decide_eq_true_eq] at h
    simp only [isAsciiUpperC, Bool.and_eq_false_iff, decide_eq_false_iff_not]
    rcases h with (h | h) | h
    · omega
    · omega
    · subst h; decide
  simp [toLowerC, hnu]

theorem replaceSpecial_fix {c : Char} (h : lowerOk c = true) : replaceSpecial c = c := by
  simp only [lowerOk, Bool.or_eq_true, beq_iff_eq, isAsciiLowerC, isAsciiDigitC,
    Bool.and_eq_true, decide_eq_true_eq] at h
  have : (c == ' ' || c == '-' || c == '.') = false := by
    simp only [Bool.or_eq_false_iff, beq_eq_false_iff_ne, ne_eq]
    refine ⟨⟨?_, ?_⟩, ?_⟩ <;> intro he <;> subst he <;>
      rcases h with (h | h) | h <;> first | omega | exact absurd h (by decide)
  simp [replaceSpecial, this]

theorem keepChar_of_lowerOk {c : Char} (h : lowerOk c = true) : keepChar c = true := by
  simp only [lowerOk, Bool.or_eq_true, beq_iff_eq] at h
  simp only [keepChar, isAlnumC, Bool.or_eq_true, beq_iff_eq]
  rcases h with (h | h) | h
  · exact Or.inl (Or.inl (Or.inr h))
  · exact Or.inl (Or.inr h)
  · exact Or.inr h

-- Output characters of the sanitizer ----------------------------------------

theorem sanitizeChars_all_lowerOk (l : List Char) :
    (sanitizeChars l).all lowerOk = true := by
  simp only [sanitizeChars]
  have hall : ((l.map replaceSpecial).filter keepChar).all keepChar = true := by
    simp only [List.all_eq_true]
    intro c hc
    exact List.of_mem_filter hc
  have step : ∀ m : List Char, m.all keepChar = true → (m.map toLowerC).all lowerOk = true := by
    intro m hm
    simp only [List.all_eq_true] at hm ⊢
    intro c hc
    rcases List.mem_map.mp hc with ⟨d, hd, rfl⟩
    exact toLowerC_lowerOk (hm d hd)
  apply step
  cases h3 : (l.map replaceSpecial).filter keepChar with
  | nil => rfl
  | cons c rest =>
    rw [h3] at hall
    by_cases hdig : isAsciiDigitC c = true
    · simp only [prefixIfDigit, hdig, if_true]
      simp only [List.all_append, Bool.and_eq_true]
      exact ⟨by decide, hall⟩
    · simp only [Bool.not_eq_true] at hdig
      simp only [prefixIfDigit, hdig, Bool.false_eq_true, if_false]
      exact hall

theorem lower_not_digit {c : Char} (h : isAsciiLowerC c = true) :
    isAsciiDigitC c = false := by
  simp only [isAsciiLowerC, Bool.and_eq_true, decide_eq_true_eq] at h
  simp only [isAsciiDigitC, Bool.and_eq_false_iff, decide_eq_false_iff_not]
  omega

theorem toLowerC_not_digit {c : Char} (h : isAsciiDigitC c = false) :
    isAsciiDigitC (toLowerC c) = false := by
  by_cases hu : isAsciiUpperC c = true
  · have hl : isAsciiLowerC (toLowerC c) = true := by
      simp only [isAsciiUpperC, Bool.and_eq_true, decide_eq_true_eq] at hu
      simp only [toLowerC, isAsciiUpperC]
      rw [if_pos]
      · exact lowerC_of_upper_nat hu.1 hu.2
      · simp only [Bool.and_eq_true, decide_eq_true_eq]; exact hu
    exact lower_not_digit hl
  · simp only [Bool.not_eq_true] at hu
    simp [toLowerC, hu, h]

/-- The first character of a sanitized name is never an ASCII digit. -/
theorem sanitizeChars_head_not_digit (l : List Char) {c : Char} {rest : List Char}
    (h : sanitizeChars l = c :: rest) : isAsciiDigitC c = false := by
  simp only [sanitizeChars] at h
  cases h2 : (l.map replaceSpecial).filter keepChar with
  | nil =>
    rw [h2] at h
    simp [prefixIfDigit] at h
  | cons d ds =>
    rw [h2] at h
    by_cases hdig : isAsciiDigitC d = true
    · simp only [prefixIfDigit, hdig, if_true, List.map_append] at h
      have hc : c = toLowerC 's' := by
        have := congrArg (List.headD · '_') h
        simpa using this.symm
      subst hc
      decide
    · simp only [Bool.not_eq_true] at hdig
      simp only [prefixIfDigit, hdig, Bool.false_eq_true, if_false, List.map_cons] at h
      have hc : c = toLowerC d := by
        have := congrArg (List.headD · '_') h
        simpa using this.symm
      subst hc
      exact toLowerC_not_digit hdig

theorem map_id_of_all {f : Char → Char} {p : Char → Bool}
    (hf : ∀ c, p c = true → f c = c) :
    ∀ m : List Char, m.all p = true → m.map f = m := by
  intro m hm
  induction m with
  | nil => rfl
  | cons c cs ih =>
    simp only [List.all_cons, Bool.and_eq_true] at hm
    simp only [List.map_cons, hf c hm.1, ih hm.2]

/-- Sanitizing is idempotent at the character-list level. -/
theorem sanitizeChars_idem (l : List Char) :
    sanitizeChars (sanitizeChars l) = sanitizeChars l := by
  have hall : (sanitizeChars l).all lowerOk = true := sanitizeChars_all_lowerOk l
  conv_lhs => rw [sanitizeChars]
  rw [map_id_of_all (fun c h => replaceSpecial_fix h) _ hall]
  rw [List.filter_eq_self.mpr (by
    intro a ha
    exact keepChar_of_lowerOk ((List.all_eq_true.mp hall) a ha))]
  cases h2 : sanitizeChars l with
  | nil => rfl
  | cons c rest =>
    have hnd := sanitizeChars_head_not_digit l h2
    simp only [prefixIfDigit, hnd, Bool.false_eq_true, if_false]
    rw [← h2]
    exact map_id_of_all (fun c h => toLowerC_fix h) _ hall

-- Claim theorems about the sanitizer ----------------------------------------

theorem lowerOk_of_digit {c : Char} (hd : isAsciiDigitC c = true) : lowerOk c = true := by
  simp [lowerOk, hd]

theorem sanitizeChars_digit_head {c : Char} (rest : List Char)
    (hd : isAsciiDigitC c = true) :
    sanitizeChars (c :: rest) =
      "sheet_".data ++ (c :: (rest.map replaceSpecial).filter keepChar).map toLowerC := by
  have hlo : lowerOk c = true := lowerOk_of_digit hd
  simp only [sanitizeChars, List.map_cons, replaceSpecial_fix hlo]
  rw [List.filter_cons_of_pos (keepChar_of_lowerOk hlo)]
  simp only [prefixIfDigit, hd, if_true, List.map_append]
  congr 1

/-- C6: for every input string whose first character is an (ASCII) digit,
the sanitizer's output starts with the literal `sheet_`, so its first
character is the letter `s`, never a digit. -/
theorem C6_digit_start_gets_sheet_pfx (s : String) (c : Char) (rest : List Char)
    (hs : s.data = c :: rest) (hd : isAsciiDigitC c = true) :
    ∃ t, (sanitize_table_name s).data = "sheet_".data ++ t ∧
      (sanitize_table_name s).data.headD '0' = 's' := by
  refine ⟨(c :: (rest.map replaceSpecial).filter keepChar).map toLowerC, ?_, ?_⟩
  · show sanitizeChars s.data = _
    rw [hs]
    exact sanitizeChars_digit_head rest hd
  · show (sanitizeChars s.data).headD '0' = 's'
    rw [hs, sanitizeChars_digit_head rest hd]
    rfl

/-- Witness for C6 at the concrete input `"1a"`:
`sanitize_table_name "1a" = "sheet_1a"`. -/
theorem C6_digit_start_gets_sheet_pfx_witness :
    ∃ t, (sanitize_table_name "1a").data = "sheet_".data ++ t ∧
      (sanitize_table_name "1a").data.headD '0' = 's' :=
  C6_digit_start_gets_sheet_pfx "1a" '1' ['a'] (by decide) (by decide)

-- The Sheet Loader ----------------------------------------------------------

/-- The tabular structure a sheet is read into (the shape data of a pandas
`DataFrame`): a row count and column count.  `pd.read_excel` returns the
data rows below the header row. -/
structure Df where
  rows : Nat
  cols : Nat
deriving Repr, DecidableEq

/-- Pandas `df.empty`: true when either axis has length zero. -/
def Df.isEmpty (d : Df) : Bool := d.rows == 0 || d.cols == 0

/-- One sheet of the workbook, together with the behaviour of the external
collaborators on it: `readR` is what `pd.read_excel` does (returns a
dataframe or raises with a message), `writeR` is what `conn.execute` of the
CREATE OR REPLACE statement does (`none` = succeeds, `some msg` = raises). -/
structure SheetInput where
  name : String
  readR : Except String Df
  writeR : Option String
deriving Repr

/-- The mutable state of one `load_xlsx` invocation: the destination
database (tables by name) and the `loaded_sheets` / `skipped_sheets`
accumulators, exactly as in lines 62–63 of `cli.py`. -/
structure LoadState where
  db : List (String × Df)
  loaded : List (String × String × Nat × Nat)
  skipped : List String
deriving Repr, DecidableEq

def initState : LoadState := ⟨[], [], []⟩

/-- `CREATE OR REPLACE TABLE n AS ...`: drop any table called `n`, add the
new one. -/
def dbPut (db : List (String × Df)) (n : String) (df : Df) : List (String × Df) :=
  (n, df) :: db.filter (fun p => p.1 != n)

/-- Lines 80–82: sanitize the sheet name and prepend the table-name
prefix (with an underscore separator) when the prefix string is truthy,
i.e. non-empty. -/
def mkTableName (tablePfx sheetName : String) : String :=
  if tablePfx = "" then sanitize_table_name sheetName
  else tablePfx ++ "_" ++ sanitize_table_name sheetName

/-- The body of the `for sheet_name in sheet_names` loop (lines 65–103):
read the sheet, skip it when empty, otherwise create-or-replace its
destination table; an error while reading or writing is recorded and
skipped when `skip_errors` is set, and otherwise aborts the run
(`.error` carries the state at the moment of the abort). -/
def processSheet (skipErrors : Bool) (tablePfx : String) (st : LoadState) (s : SheetInput) :
    Except LoadState LoadState :=
  match s.readR with
  | .error e =>
    if skipErrors then
      .ok { st with skipped := st.skipped ++ [s.name ++ " (error: " ++ e ++ ")"] }
    else .error st
  | .ok df =>
    if df.isEmpty then
      .ok { st with skipped := st.skipped ++ [s.name ++ " (empty)"] }
    else
      let tName := mkTableName tablePfx s.name
      match s.writeR with
      | some e =>
        if skipErrors then
          .ok { st with skipped := st.skipped ++ [s.name ++ " (error: " ++ e ++ ")"] }
        else .error st
      | none =>
        .ok { st with db := dbPut st.db tName df,
                      loaded := st.loaded ++ [(s.name, tName, df.rows, df.cols)] }

/-- The per-sheet loop over the whole sheet list. -/
def runSheets (skipErrors : Bool) (tablePfx : String) :
    List SheetInput → LoadState → Except LoadState LoadState
  | [], st => .ok st
  | s :: rest, st =>
    match processSheet skipErrors tablePfx st s with
    | .ok st' => runSheets skipErrors tablePfx rest st'
    | .error st' => .error st'

/-- The workbook-side inputs of a `load_xlsx` invocation: whether the
xlsx file exists, and what `pd.ExcelFile(...).sheet_names` does (the
sheets in source order, or an error while opening the workbook). -/
structure Workbook where
  fileExists : Bool
  sheetsR : Except String (List SheetInput)
deriving Repr

/-- The observable outcome of one `load_xlsx` invocation: final database,
the two accumulators, the process exit code, and whether the duckdb
connection was opened / explicitly closed (`conn.close()`, line 105). -/
structure RunResult where
  db : List (String × Df)
  loaded : List (String × String × Nat × Nat)
  skipped : List String
  exitCode : Nat
  connOpened : Bool
  connClosed : Bool
deriving Repr, DecidableEq

/-- The `load_xlsx` command (lines 29–123): validate the workbook path,
enumerate sheet names, open the duckdb connection, run the per-sheet
loop, then `conn.close()` and the summary.  `typer.Exit(1)` raised for a
sheet when `skip_errors` is off — like any exception inside the outer
`try` — is caught by the outer `except Exception` (line 121), which
prints the message and exits 1 *without* reaching `conn.close()`. -/
def load_xlsx (wb : Workbook) (connectR : Except String Unit)
    (tablePfx : String) (skipErrors : Bool) : RunResult :=
  if wb.fileExists = false then
    { db := [], loaded := [], skipped := [], exitCode := 1,
      connOpened := false, connClosed := false }
  else
    match wb.sheetsR with
    | .error _ =>
      { db := [], loaded := [], skipped := [], exitCode := 1,
        connOpened := false, connClosed := false }
    | .ok sheets =>
      match connectR with
      | .error _ =>
        { db := [], loaded := [], skipped := [], exitCode := 1,
          connOpened := false, connClosed := false }
      | .ok _ =>
        match runSheets skipErrors tablePfx sheets initState with
        | .ok st =>
          { db := st.db, loaded := st.loaded, skipped := st.skipped,
            exitCode := 0, connOpened := true, connClosed := true }
        | .error st =>
          { db := st.db, loaded := st.loaded, skipped := st.skipped,
            exitCode := 1, connOpened := true, connClosed := false }

/-- A sheet on which reading or writing raises, with message `m`
(an empty sheet raises nothing: the write is never attempted). -/
def sheetFailsWith (s : SheetInput) (m : String) : Prop :=
  s.readR = .error m ∨ ∃ df, s.readR = .ok df ∧ df.isEmpty = false ∧ s.writeR = some m

/-- A sheet on which reading or writing raises. -/
def sheetAborts (s : SheetInput) : Prop := ∃ m, sheetFailsWith s m

-- Loader lemmas --------------------------------------------------------------

theorem processSheet_fail_skip {s : SheetInput} {m : String} (tablePfx : String)
    (st : LoadState) (hf : sheetFailsWith s m) :
    processSheet true tablePfx st s =
      .ok { st with skipped := st.skipped ++ [s.name ++ " (error: " ++ m ++ ")"] } := by
  rcases hf with hr | ⟨df, hr, he, hw⟩
  · simp [processSheet, hr]
  · simp [processSheet, hr, he, hw]

theorem processSheet_abort {s : SheetInput} (tablePfx : String) (st : LoadState)
    (hf : sheetAborts s) :
    processSheet false tablePfx st s = .error st := by
  rcases hf with ⟨m, hr | ⟨df, hr, he, hw⟩⟩
  · simp [processSheet, hr]
  · simp [processSheet, hr, he, hw]

theorem processSheet_skip_ok (tablePfx : String) (st : LoadState) (s : SheetInput) :
    ∃ st', processSheet true tablePfx st s = .ok st' ∧
      ∃ t, st'.skipped = st.skipped ++ t := by
  cases hr : s.readR with
  | error e =>
    exact ⟨{ st with skipped := st.skipped ++ [s.name ++ " (error: " ++ e ++ ")"] },
      by simp [processSheet, hr], [s.name ++ " (error: " ++ e ++ ")"], rfl⟩
  | ok df =>
    by_cases he : df.isEmpty = true
    · exact ⟨{ st with skipped := st.skipped ++ [s.name ++ " (empty)"] },
        by simp [processSheet, hr, he], [s.name ++ " (empty)"], rfl⟩
    · cases hw : s.writeR with
      | some e =>
        exact ⟨{ st with skipped := st.skipped ++ [s.name ++ " (error: " ++ e ++ ")"] },
          by simp [processSheet, hr, he, hw], [s.name ++ " (error: " ++ e ++ ")"], rfl⟩
      | none =>
        refine ⟨{ st with
              db := dbPut st.db (mkTableName tablePfx s.name) df
              loaded := st.loaded ++ [(s.name, mkTableName tablePfx s.name, df.rows, df.cols)] },
          ?_, [], (List.append_nil _).symm⟩
        simp [processSheet, hr, he, hw]

theorem runSheets_skip_ok (tablePfx : String) :
    ∀ (l : List SheetInput) (st : LoadState),
      ∃ st', runSheets true tablePfx l st = .ok st' ∧
        ∃ t, st'.skipped = st.skipped ++ t := by
  intro l
  induction l with
  | nil => exact fun st => ⟨st, rfl, [], (List.append_nil _).symm⟩
  | cons s rest ih =>
    intro st
    obtain ⟨st1, h1, t1, ht1⟩ := processSheet_skip_ok tablePfx st s
    obtain ⟨st2, h2, t2, ht2⟩ := ih st1
    refine ⟨st2, ?_, t1 ++ t2, ?_⟩
    · simp [runSheets, h1, h2]
    · rw [ht2, ht1, List.append_assoc]

theorem runSheets_append (se : Bool) (tablePfx : String) (l1 l2 : List SheetInput)
    (st : LoadState) :
    runSheets se tablePfx (l1 ++ l2) st =
      match runSheets se tablePfx l1 st with
      | .ok st1 => runSheets se tablePfx l2 st1
      | .error st1 => .error st1 := by
  induction l1 generalizing st with
  | nil => rfl
  | cons s rest ih =>
    simp only [List.cons_append, runSheets]
    cases processSheet se tablePfx st s with
    | ok st' => exact ih st'
    | error st' => rfl

/-- Every step of the loop either only appends a skip entry, aborts with
the state unchanged, or writes the table for the sheet and records it in
`loaded` under the name `mkTableName tablePfx s.name`. -/
theorem processSheet_cases (se : Bool) (tablePfx : String) (st : LoadState) (s : SheetInput) :
    (∃ r, processSheet se tablePfx st s = .ok { st with skipped := st.skipped ++ [r] }) ∨
    processSheet se tablePfx st s = .error st ∨
    (∃ df, s.readR = .ok df ∧
      processSheet se tablePfx st s = .ok { st with
        db := dbPut st.db (mkTableName tablePfx s.name) df,
        loaded := st.loaded ++ [(s.name, mkTableName tablePfx s.name, df.rows, df.cols)] }) := by
  cases hr : s.readR with
  | error m =>
    cases se
    · exact Or.inr (Or.inl (by simp [processSheet, hr]))
    · exact Or.inl ⟨s.name ++ " (error: " ++ m ++ ")", by simp [processSheet, hr]⟩
  | ok df =>
    by_cases he : df.isEmpty = true
    · exact Or.inl ⟨s.name ++ " (empty)", by simp [processSheet, hr, he]⟩
    · cases hw : s.writeR with
      | some m =>
        cases se
        · exact Or.inr (Or.inl (by simp [processSheet, hr, he, hw]))
        · exact Or.inl ⟨s.name ++ " (error: " ++ m ++ ")", by simp [processSheet, hr, he, hw]⟩
      | none =>
        exact Or.inr (Or.inr ⟨df, rfl, by simp [processSheet, hr, he, hw]⟩)

/-- Along any run of the loop, every entry of `loaded` carries the table
name built by `mkTableName` from its sheet name. -/
theorem runSheets_loaded_names (se : Bool) (tablePfx : String) :
    ∀ (l : List SheetInput) (st st' : LoadState),
      (runSheets se tablePfx l st = .ok st' ∨ runSheets se tablePfx l st = .error st') →
      (∀ e ∈ st.loaded, e.2.1 = mkTableName tablePfx e.1) →
      ∀ e ∈ st'.loaded, e.2.1 = mkTableName tablePfx e.1 := by
  intro l
  induction l with
  | nil =>
    intro st st' h hst
    rcases h with h | h
    · simp only [runSheets, Except.ok.injEq] at h
      subst h; exact hst
    · simp only [runSheets] at h
      cases h
  | cons s rest ih =>
    intro st st' h hst
    rcases processSheet_cases se tablePfx st s with ⟨r, hps⟩ | hps | ⟨df, hr, hps⟩
    · simp only [runSheets, hps] at h
      exact ih _ st' h hst
    · simp only [runSheets, hps] at h
      rcases h with h | h
      · cases h
      · simp only [Except.error.injEq] at h
        subst h; exact hst
    · simp only [runSheets, hps] at h
      refine ih _ st' h ?_
      intro e he
      rcases List.mem_append.mp he with he | he
      · exact hst e he
      · rcases List.mem_singleton.mp he with rfl
        rfl

-- Claim theorems about the Sheet Loader --------------------------------------

/-- C1: with skip-errors disabled, a sheet whose read or write raises
aborts the whole run with exit code 1; the result is exactly the state
reached after the earlier sheets, so their tables remain in the database
and no later sheet is processed (the result does not depend on `l2`). -/
theorem C1_noskip_error_aborts (tablePfx : String) (l1 l2 : List SheetInput)
    (bad : SheetInput) (st1 : LoadState)
    (h1 : runSheets false tablePfx l1 initState = .ok st1)
    (hb : sheetAborts bad) :
    load_xlsx ⟨true, .ok (l1 ++ bad :: l2)⟩ (.ok ()) tablePfx false =
      { db := st1.db, loaded := st1.loaded, skipped := st1.skipped,
        exitCode := 1, connOpened := true, connClosed := false } := by
  have hrun : runSheets false tablePfx (l1 ++ bad :: l2) initState = .error st1 := by
    rw [runSheets_append, h1]
    simp only [runSheets, processSheet_abort tablePfx st1 hb]
  simp [load_xlsx, hrun]

/-- Witness for C1: first sheet loads, second raises, third is never
reached; the run exits 1 with the first sheet's table in the database. -/
theorem C1_noskip_error_aborts_witness :
    load_xlsx ⟨true, .ok [⟨"first", .ok ⟨2, 3⟩, none⟩, ⟨"bad", .error "boom", none⟩,
        ⟨"third", .ok ⟨1, 1⟩, none⟩]⟩ (.ok ()) "" false =
      { db := [("first", ⟨2, 3⟩)], loaded := [("first", "first", 2, 3)], skipped := [],
        exitCode := 1, connOpened := true, connClosed := false } :=
  C1_noskip_error_aborts "" [⟨"first", .ok ⟨2, 3⟩, none⟩] [⟨"third", .ok ⟨1, 1⟩, none⟩]
    ⟨"bad", .error "boom", none⟩ ⟨[("first", ⟨2, 3⟩)], [("first", "first", 2, 3)], []⟩
    rfl ⟨"boom", Or.inl rfl⟩

/-- C2: with skip-errors enabled, a sheet whose read or write raises with
message `m` is recorded as skipped with reason `error: m`, the run
continues past it and completes (the connection is closed), and the exit
code is 0. -/
theorem C2_skip_records_error_and_continues (tablePfx : String) (l1 l2 : List SheetInput)
    (bad : SheetInput) (m : String) (hf : sheetFailsWith bad m) :
    (load_xlsx ⟨true, .ok (l1 ++ bad :: l2)⟩ (.ok ()) tablePfx true).exitCode = 0 ∧
    (bad.name ++ " (error: " ++ m ++ ")") ∈
      (load_xlsx ⟨true, .ok (l1 ++ bad :: l2)⟩ (.ok ()) tablePfx true).skipped ∧
    (load_xlsx ⟨true, .ok (l1 ++ bad :: l2)⟩ (.ok ()) tablePfx true).connClosed = true := by
  obtain ⟨st1, h1, t1, ht1⟩ := runSheets_skip_ok tablePfx l1 initState
  have h2 : processSheet true tablePfx st1 bad =
      .ok { st1 with skipped := st1.skipped ++ [bad.name ++ " (error: " ++ m ++ ")"] } :=
    processSheet_fail_skip tablePfx st1 hf
  obtain ⟨st3, h3, t3, ht3⟩ := runSheets_skip_ok tablePfx l2
    { st1 with skipped := st1.skipped ++ [bad.name ++ " (error: " ++ m ++ ")"] }
  have hrun : runSheets true tablePfx (l1 ++ bad :: l2) initState = .ok st3 := by
    rw [runSheets_append, h1]
    simp only [runSheets, h2]
    exact h3
  have hload : load_xlsx ⟨true, .ok (l1 ++ bad :: l2)⟩ (.ok ()) tablePfx true =
      { db := st3.db, loaded := st3.loaded, skipped := st3.skipped,
        exitCode := 0, connOpened := true, connClosed := true } := by
    simp [load_xlsx, hrun]
  refine ⟨by rw [hload], ?_, by rw [hload]⟩
  rw [hload]
  show _ ∈ st3.skipped
  rw [ht3]
  simp

/-- Witness for C2: the middle sheet raises `boom`, is recorded as
`bad (error: boom)`, and the run still exits 0. -/
theorem C2_skip_records_error_and_continues_witness :
    (load_xlsx ⟨true, .ok ([⟨"first", .ok ⟨2, 3⟩, none⟩] ++ ⟨"bad", .error "boom", none⟩ ::
        [⟨"third", .ok ⟨1, 1⟩, none⟩])⟩ (.ok ()) "" true).exitCode = 0 ∧
    ("bad" ++ " (error: " ++ "boom" ++ ")") ∈
      (load_xlsx ⟨true, .ok ([⟨"first", .ok ⟨2, 3⟩, none⟩] ++ ⟨"bad", .error "boom", none⟩ ::
        [⟨"third", .ok ⟨1, 1⟩, none⟩])⟩ (.ok ()) "" true).skipped ∧
    (load_xlsx ⟨true, .ok ([⟨"first", .ok ⟨2, 3⟩, none⟩] ++ ⟨"bad", .error "boom", none⟩ ::
        [⟨"third", .ok ⟨1, 1⟩, none⟩])⟩ (.ok ()) "" true).connClosed = true :=
  C2_skip_records_error_and_continues "" [⟨"first", .ok ⟨2, 3⟩, none⟩]
    [⟨"third", .ok ⟨1, 1⟩, none⟩] ⟨"bad", .error "boom", none⟩ "boom" (Or.inl rfl)

/-- Counterexample to C3 as stated: on the abort path (skip-errors off,
a sheet raises) the invocation opens the connection, exits 1, and never
reaches `conn.close()` — there is no `finally`/context manager in
`cli.py`, and the outer `except` re-raises without closing. -/
theorem C3_cex_conn_left_open_on_abort :
    (load_xlsx ⟨true, .ok [⟨"bad", .error "boom", none⟩]⟩ (.ok ()) "" false).connOpened = true ∧
    (load_xlsx ⟨true, .ok [⟨"bad", .error "boom", none⟩]⟩ (.ok ()) "" false).connClosed = false :=
  ⟨rfl, rfl⟩

/-- C3 (amended): whenever the connection is opened, it is closed before
the invocation ends exactly on the successful path (exit code 0); on the
abort path the invocation exits nonzero with the connection still open. -/
theorem C3_conn_closed_iff_clean_exit (wb : Workbook) (connectR : Except String Unit)
    (tablePfx : String) (se : Bool)
    (h : (load_xlsx wb connectR tablePfx se).connOpened = true) :
    ((load_xlsx wb connectR tablePfx se).connClosed = true ↔
      (load_xlsx wb connectR tablePfx se).exitCode = 0) := by
  by_cases hex : wb.fileExists = false
  · simp [load_xlsx, hex] at h
  · simp only [Bool.not_eq_false] at hex
    cases hs : wb.sheetsR with
    | error e => simp [load_xlsx, hex, hs] at h
    | ok sheets =>
      cases hc : connectR with
      | error e => simp [load_xlsx, hex, hs, hc] at h
      | ok u =>
        cases hr : runSheets se tablePfx sheets initState with
        | ok st => simp [load_xlsx, hex, hs, hc, hr]
        | error st => simp [load_xlsx, hex, hs, hc, hr]

/-- Witness for the amended C3 on a successful one-sheet run. -/
theorem C3_conn_closed_iff_clean_exit_witness :
    (load_xlsx ⟨true, .ok [⟨"a", .ok ⟨1, 1⟩, none⟩]⟩ (.ok ()) "" true).connClosed = true ↔
    (load_xlsx ⟨true, .ok [⟨"a", .ok ⟨1, 1⟩, none⟩]⟩ (.ok ()) "" true).exitCode = 0 :=
  C3_conn_closed_iff_clean_exit ⟨true, .ok [⟨"a", .ok ⟨1, 1⟩, none⟩]⟩ (.ok ()) "" true rfl

/-- C7: every entry of `loaded` carries the table name
`<prefix>_<sanitized sheet name>` when a non-empty prefix was supplied
and `<sanitized sheet name>` when the prefix is empty. -/
theorem C7_table_name_formula (wb : Workbook) (connectR : Except String Unit)
    (tablePfx : String) (se : Bool) (sheetName tbl : String) (r c : Nat)
    (h : (sheetName, tbl, r, c) ∈ (load_xlsx wb connectR tablePfx se).loaded) :
    tbl = if tablePfx = "" then sanitize_table_name sheetName
          else tablePfx ++ "_" ++ sanitize_table_name sheetName := by
  by_cases hex : wb.fileExists = false
  · simp [load_xlsx, hex] at h
  · simp only [Bool.not_eq_false] at hex
    cases hs : wb.sheetsR with
    | error e => simp [load_xlsx, hex, hs] at h
    | ok sheets =>
      cases hc : connectR with
      | error e => simp [load_xlsx, hex, hs, hc] at h
      | ok u =>
        cases hr : runSheets se tablePfx sheets initState with
        | ok st =>
          have hload : (load_xlsx wb connectR tablePfx se).loaded = st.loaded := by
            simp [load_xlsx, hex, hs, hc, hr]
          rw [hload] at h
          have hnames := runSheets_loaded_names se tablePfx sheets initState st (Or.inl hr)
            (by intro e he; simp [initState] at he) (sheetName, tbl, r, c) h
          simpa [mkTableName] using hnames
        | error st =>
          have hload : (load_xlsx wb connectR tablePfx se).loaded = st.loaded := by
            simp [load_xlsx, hex, hs, hc, hr]
          rw [hload] at h
          have hnames := runSheets_loaded_names se tablePfx sheets initState st (Or.inr hr)
            (by intro e he; simp [initState] at he) (sheetName, tbl, r, c) h
          simpa [mkTableName] using hnames

/-- Witness for C7: sheet `My Sheet` with prefix `q1` lands in table
`q1_my_sheet`. -/
theorem C7_table_name_formula_witness :
    (("My Sheet", "q1_my_sheet", 2, 3) ∈
      (load_xlsx ⟨true, .ok [⟨"My Sheet", .ok ⟨2, 3⟩, none⟩]⟩ (.ok ()) "q1" true).loaded) ∧
    "q1_my_sheet" = (if ("q1" : String) = "" then sanitize_table_name "My Sheet"
      else "q1" ++ "_" ++ sanitize_table_name "My Sheet") :=
  ⟨by decide, C7_table_name_formula ⟨true, .ok [⟨"My Sheet", .ok ⟨2, 3⟩, none⟩]⟩ (.ok ())
    "q1" true "My Sheet" "q1_my_sheet" 2 3 (by decide)⟩

/-- C9: a sheet read into a dataframe with zero rows is recorded as
skipped with reason `empty` and changes neither the database nor the
loaded list — true for either value of skip-errors. -/
theorem C9_empty_sheet_skipped (se : Bool) (tablePfx : String) (st : LoadState)
    (s : SheetInput) (df : Df) (h1 : s.readR = .ok df) (h2 : df.rows = 0) :
    processSheet se tablePfx st s =
      .ok { st with skipped := st.skipped ++ [s.name ++ " (empty)"] } := by
  have he : df.isEmpty = true := by simp [Df.isEmpty, h2]
  simp [processSheet, h1, he]

/-- Witness for C9 on a 0-row, 4-column sheet named `Empty`. -/
theorem C9_empty_sheet_skipped_witness :
    processSheet true "" initState ⟨"Empty", .ok ⟨0, 4⟩, none⟩ =
      .ok { initState with skipped := initState.skipped ++ ["Empty" ++ " (empty)"] } :=
  C9_empty_sheet_skipped true "" initState ⟨"Empty", .ok ⟨0, 4⟩, none⟩ ⟨0, 4⟩ rfl rfl

/-- C10: a failure before the per-sheet loop — enumerating the sheet
names or opening the duckdb connection — exits 1 regardless of the
skip-errors flag. -/
theorem C10_preloop_failure_fatal (wb : Workbook) (connectR : Except String Unit)
    (tablePfx : String) (se : Bool) (hex : wb.fileExists = true)
    (h : (∃ e, wb.sheetsR = .error e) ∨
         ((∃ l, wb.sheetsR = .ok l) ∧ ∃ e, connectR = .error e)) :
    (load_xlsx wb connectR tablePfx se).exitCode = 1 := by
  rcases h with ⟨e, hs⟩ | ⟨⟨l, hs⟩, ⟨e, hc⟩⟩
  · simp [load_xlsx, hex, hs]
  · simp [load_xlsx, hex, hs, hc]

/-- Witness for C10: a corrupt workbook fails to enumerate even with
skip-errors enabled, and the run exits 1. -/
theorem C10_preloop_failure_fatal_witness :
    (load_xlsx ⟨true, .error "not a zip file"⟩ (.ok ()) "" true).exitCode = 1 :=
  C10_preloop_failure_fatal ⟨true, .error "not a zip file"⟩ (.ok ()) "" true rfl
    (Or.inl ⟨"not a zip file", rfl⟩)

-- Batch-mode prefix derivation (load_all_xlsx, lines 148–154) ----------------

/-- `re.sub(r'_\d{8}_\d{6}', '', s)`: scan left to right; at each
position, if the 16-character pattern (underscore, 8 digits, underscore,
6 digits) matches, delete it and resume after it; otherwise keep the
character and move on.  A position with fewer than 16 characters left
cannot match, so the remainder is kept as is. -/
def stripTs : List Char → List Char
  | c :: d1 :: d2 :: d3 :: d4 :: d5 :: d6 :: d7 :: d8 :: u :: e1 :: e2 :: e3 :: e4 :: e5 :: e6 :: rest =>
    if c == '_' && u == '_' &&
        ([d1, d2, d3, d4, d5, d6, d7, d8, e1, e2, e3, e4, e5, e6].all isAsciiDigitC) then
      stripTs rest
    else
      c :: stripTs (d1 :: d2 :: d3 :: d4 :: d5 :: d6 :: d7 :: d8 :: u ::
        e1 :: e2 :: e3 :: e4 :: e5 :: e6 :: rest)
  | l => l

/-- The first `.`-separated suffix cut from the end: returns the part of
the reversed name after the first `.`, or `none` when there is no dot. -/
def dropUptoDot : List Char → Option (List Char)
  | [] => none
  | c :: rest => if c == '.' then some rest else dropUptoDot rest

/-- `pathlib.PurePath.stem`: the name without its suffix, where the
suffix is `name[i:]` for `i = name.rfind('.')` only when `0 < i <
len(name) - 1` (so names starting or ending with the dot keep it). -/
def stemChars (l : List Char) : List Char :=
  match l.reverse with
  | [] => l
  | c :: rest =>
    if c == '.' then l
    else
      match dropUptoDot rest with
      | none => l
      | some [] => l
      | some stemRev => stemRev.reverse

/-- Line 154: `filename.replace(" ", "_").replace("-", "_")`. -/
def replaceSpaceHyphen (c : Char) : Char :=
  if c == ' ' || c == '-' then '_' else c

/-- Lines 150–154 of `load_all_xlsx`: table prefix derived from a matched
file name — stem, timestamp pattern stripped, spaces/hyphens replaced by
underscores. -/
def derivePfx (filename : String) : String :=
  String.mk ((stripTs (stemChars filename.data)).map replaceSpaceHyphen)

/-- C8: in batch mode, `sales_20250919_085132.xlsx` derives the table
prefix `sales` (the embedded `_\d{8}_\d{6}` timestamp is deleted from the
stem), and its sheet `Totals` then produces the table `sales_totals`;
the derivation is `derivePfx`, embedded from lines 148–154. -/
theorem C8_batch_pfx_example :
    derivePfx "sales_20250919_085132.xlsx" = "sales" ∧
    mkTableName (derivePfx "sales_20250919_085132.xlsx") "Totals" = "sales_totals" := by
  constructor <;> rfl

-- Unicode behaviour of the sanitizer ----------------------------------------

/-- ASCII test. -/
def asciiC (c : Char) : Bool := c.toNat < 128

/-- Python's Unicode-aware `str.isalnum` on the domain used in this
development: faithful on all of ASCII and on the non-ASCII codepoints
U+0130 (`İ`, an uppercase letter), U+00C9/U+00E9 (`É`/`é`, letters) and
U+0307 (combining dot above, a mark — not alphanumeric, so it falls to
the `isAlnumC c` disjunct, which is false beyond ASCII). -/
def pyIsAlnumU (c : Char) : Bool :=
  isAlnumC c || c == 'İ' || c == 'É' || c == 'é'

/-- The line-22 filter `c.isalnum() or c == "_"` with the Unicode-aware
alphanumeric test. -/
def keepCharU (c : Char) : Bool := pyIsAlnumU c || c == '_'

/-- Python's `str.lower`, per character and one-to-many, faithful on the
same domain: ASCII uppercase maps down by 32, `'İ'.lower()` is the
two-character string `i` + U+0307, `'É'.lower()` is `é`, and `é` and
U+0307 (and the rest of the domain) are left unchanged. -/
def pyLowerC (c : Char) : List Char :=
  if isAsciiUpperC c then [Char.ofNat (c.toNat + 32)]
  else if c == 'İ' then ['i', Char.ofNat 0x307]
  else if c == 'É' then ['é']
  else [c]

/-- `sanitize_table_name` under the Unicode-extended character model
(the digit test of lines 24–25 stays `isAsciiDigitC`: none of the
modelled non-ASCII codepoints is a digit). -/
def sanitizeCharsU (l : List Char) : List Char :=
  ((prefixIfDigit ((l.map replaceSpecial).filter keepCharU)).map pyLowerC).flatten

/-- The sanitizer of `cli.py` lines 17–26 under the Unicode-extended
character model. -/
def sanitize_table_nameU (name : String) : String :=
  String.mk (sanitizeCharsU name.data)

theorem asciiC_replaceSpecial {c : Char} (h : asciiC c = true) :
    asciiC (replaceSpecial c) = true := by
  simp only [replaceSpecial]
  split
  · decide
  · exact h

theorem pyIsAlnumU_eq_of_ascii {c : Char} (h : asciiC c = true) :
    pyIsAlnumU c = isAlnumC c := by
  have h' : c.toNat < 128 := by simpa [asciiC] using h
  have h1 : (c == 'İ') = false := by
    simp only [beq_eq_false_iff_ne, ne_eq]
    intro he; subst he; exact absurd h' (by decide)
  have h2 : (c == 'É') = false := by
    simp only [beq_eq_false_iff_ne, ne_eq]
    intro he; subst he; exact absurd h' (by decide)
  have h3 : (c == 'é') = false := by
    simp only [beq_eq_false_iff_ne, ne_eq]
    intro he; subst he; exact absurd h' (by decide)
  simp [pyIsAlnumU, h1, h2, h3]

theorem keepCharU_eq_of_ascii {c : Char} (h : asciiC c = true) :
    keepCharU c = keepChar c := by
  simp [keepCharU, keepChar, pyIsAlnumU_eq_of_ascii h]

theorem pyLowerC_eq_of_ascii {c : Char} (h : asciiC c = true) :
    pyLowerC c = [toLowerC c] := by
  have h' : c.toNat < 128 := by simpa [asciiC] using h
  by_cases hu : isAsciiUpperC c = true
  · simp [pyLowerC, hu, toLowerC]
  · have h1 : (c == 'İ') = false := by
      simp only [beq_eq_false_iff_ne, ne_eq]
      intro he; subst he; exact absurd h' (by decide)
    have h2 : (c == 'É') = false := by
      simp only [beq_eq_false_iff_ne, ne_eq]
      intro he; subst he; exact absurd h' (by decide)
    simp only [Bool.not_eq_true] at hu
    simp [pyLowerC, hu, h1, h2, toLowerC]

theorem asciiC_of_lowerOk {c : Char} (h : lowerOk c = true) : asciiC c = true := by
  simp only [lowerOk, Bool.or_eq_true, beq_iff_eq, isAsciiLowerC, isAsciiDigitC,
    Bool.and_eq_true, decide_eq_true_eq] at h
  simp only [asciiC, decide_eq_true_eq]
  rcases h with (h | h) | h
  · omega
  · omega
  · subst h; decide

/-- On ASCII input the Unicode-extended model and the ASCII model of the
sanitizer agree (an ASCII character is treated identically by the real
Unicode string methods and by their ASCII restrictions). -/
theorem sanitizeCharsU_eq_of_ascii {l : List Char} (h : l.all asciiC = true) :
    sanitizeCharsU l = sanitizeChars l := by
  have h1 : (l.map replaceSpecial).all asciiC = true := by
    simp only [List.all_eq_true] at h ⊢
    intro c hc
    rcases List.mem_map.mp hc with ⟨d, hd, rfl⟩
    exact asciiC_replaceSpecial (h d hd)
  have h2 : (l.map replaceSpecial).filter keepCharU
      = (l.map replaceSpecial).filter keepChar :=
    List.filter_congr (fun c hc => keepCharU_eq_of_ascii ((List.all_eq_true.mp h1) c hc))
  have h3 : ((l.map replaceSpecial).filter keepChar).all asciiC = true := by
    simp only [List.all_eq_true] at h1 ⊢
    intro c hc
    exact h1 c (List.mem_of_mem_filter hc)
  have h4 : (prefixIfDigit ((l.map replaceSpecial).filter keepChar)).all asciiC = true := by
    cases h5 : (l.map replaceSpecial).filter keepChar with
    | nil => simp [prefixIfDigit]
    | cons c rest =>
      rw [h5] at h3
      by_cases hdig : isAsciiDigitC c = true
      · simp only [prefixIfDigit, hdig, if_true, List.all_append, Bool.and_eq_true]
        exact ⟨by decide, h3⟩
      · simp only [Bool.not_eq_true] at hdig
        simp only [prefixIfDigit, hdig, Bool.false_eq_true, if_false]
        exact h3
  have h6 : ∀ m : List Char, m.all asciiC = true →
      (m.map pyLowerC).flatten = m.map toLowerC := by
    intro m hm
    induction m with
    | nil => rfl
    | cons c cs ih =>
      simp only [List.all_cons, Bool.and_eq_true] at hm
      simp only [List.map_cons, List.flatten_cons, pyLowerC_eq_of_ascii hm.1,
        List.singleton_append, ih hm.2]
  simp only [sanitizeCharsU, sanitizeChars, h2]
  exact h6 _ h4

/-- Counterexample to C4 as stated: the program's string methods are
Unicode-aware, and on input `İ` (U+0130) lowercasing produces `i`
followed by the combining mark U+0307, which is neither alphanumeric
(under Python's `isalnum`, modelled by `pyIsAlnumU`) nor an underscore,
nor a lowercase ASCII alphanumeric — so the sanitizer's output is not
made of lowercase alphanumerics and underscores. -/
theorem C4_cex_nonalnum_output :
    (sanitize_table_nameU "İ").data = ['i', Char.ofNat 0x307] ∧
    pyIsAlnumU (Char.ofNat 0x307) = false ∧
    (Char.ofNat 0x307 == '_') = false ∧
    lowerOk (Char.ofNat 0x307) = false := by
  decide

/-- C4 (amended): for every input string of ASCII characters the
sanitizer's output contains only lowercase ASCII alphanumerics and
underscores (stated for the Unicode-extended model, which is what the
program does on ASCII input). -/
theorem C4_ascii_output_charset (name : String) (h : name.data.all asciiC = true) :
    (sanitize_table_nameU name).data.all lowerOk = true := by
  show (sanitizeCharsU name.data).all lowerOk = true
  rw [sanitizeCharsU_eq_of_ascii h]
  exact sanitizeChars_all_lowerOk name.data

/-- Witness for the amended C4 at the ASCII input `"A b-1.c"`. -/
theorem C4_ascii_output_charset_witness :
    ("A b-1.c".data.all asciiC = true) ∧
    (sanitize_table_nameU "A b-1.c").data.all lowerOk = true :=
  ⟨by decide, C4_ascii_output_charset "A b-1.c" (by decide)⟩

/-- Counterexample to C5 as stated: sanitizing is not idempotent.
`sanitize('İ')` is `i` + U+0307, and the second pass drops the combining
mark at the alphanumeric filter, giving plain `i`. -/
theorem C5_cex_not_idempotent :
    sanitize_table_nameU (sanitize_table_nameU "İ") ≠ sanitize_table_nameU "İ" := by
  decide

/-- C5 (amended): the sanitizer is idempotent on every input string of
ASCII characters; non-ASCII input can break idempotence, as the
counterexample shows. -/
theorem C5_ascii_idempotent (x : String) (h : x.data.all asciiC = true) :
    sanitize_table_nameU (sanitize_table_nameU x) = sanitize_table_nameU x := by
  have h1 : sanitizeCharsU x.data = sanitizeChars x.data := sanitizeCharsU_eq_of_ascii h
  have h2 : (sanitizeChars x.data).all asciiC = true := by
    have hall := sanitizeChars_all_lowerOk x.data
    simp only [List.all_eq_true] at hall ⊢
    exact fun c hc => asciiC_of_lowerOk (hall c hc)
  show String.mk (sanitizeCharsU (sanitizeCharsU x.data)) = String.mk (sanitizeCharsU x.data)
  refine congrArg String.mk ?_
  calc sanitizeCharsU (sanitizeCharsU x.data)
      = sanitizeCharsU (sanitizeChars x.data) := by rw [h1]
    _ = sanitizeChars (sanitizeChars x.data) := sanitizeCharsU_eq_of_ascii h2
    _ = sanitizeChars x.data := sanitizeChars_idem x.data
    _ = sanitizeCharsU x.data := h1.symm

/-- Witness for the amended C5 at the ASCII input `"A b-1.c"`. -/
theorem C5_ascii_idempotent_witness :
    ("A b-1.c".data.all asciiC = true) ∧
    sanitize_table_nameU (sanitize_table_nameU "A b-1.c") = sanitize_table_nameU "A b-1.c" :=
  ⟨by decide, C5_ascii_idempotent "A b-1.c" (by decide)⟩
